import Mathlib

/-!
Shallow embedding of the hono-auth token-lifecycle and role-hierarchy core.

Sources embedded:
* `src/libs/password.ts` — bcrypt hash/verify, idealised as an injective
  salted hash (`HashedSecret`), with `passwordVerify` the collision-free
  comparison of a raw value against a stored hash.
* `src/libs/jwt.ts` — oslo-based JWT codec: `createToken` (HS256, payload
  `{sub, iat, exp}`, deterministic given secret/subject/time/TTL),
  `validateToken` (wraps every `validateJWT` failure in one generic error
  carrying the original as its cause), `createAccessToken`,
  `createRefreshToken` (mints the refresh JWT, hashes it, and inserts a
  `userToken` row on the global `db` client).
* `src/services/authService.ts` — `register`, `login`, `processToken`
  (shared body of `regenToken` / `logout`): decode, per-subject active-record
  scan under slow-hash verify, revoke + purge inside the Prisma transaction,
  and the replacement-pair mint.
* role middleware (`getRoleHierarchy`, `getFilteredRoleHierarchy`, and the
  non-strict access check): the recursive parent walk has no cycle guard in
  the source, so it is embedded fuel-indexed, `none` meaning the recursion
  exceeds every bound (divergence).

The Prisma `$transaction` is embedded by tagging each emitted store
mutation with the connection it runs on (`inTransaction`): `runAll` is the
committed semantics, `runRolledBack` keeps only the operations issued on
the global client, i.e. the state left behind when the surrounding
transaction aborts.

Time is modelled as `Nat` seconds; a record's `expiresAt` and a JWT `exp`
claim denote the same instant in those units.
-/

namespace HonoAuth

/-- Decidable equality for `Except` results, so concrete runs can be
checked by `decide`. -/
instance {ε α : Type} [DecidableEq ε] [DecidableEq α] : DecidableEq (Except ε α) := fun x y =>
  match x, y with
  | .ok a, .ok b =>
    if h : a = b then isTrue (by rw [h]) else
      isFalse (by intro hc; injection hc; contradiction)
  | .error a, .error b =>
    if h : a = b then isTrue (by rw [h]) else
      isFalse (by intro hc; injection hc; contradiction)
  | .ok _, .error _ => isFalse (by intro hc; exact Except.noConfusion hc)
  | .error _, .ok _ => isFalse (by intro hc; exact Except.noConfusion hc)

/-! ### Credential Verifier (`src/libs/password.ts`) -/

/-- Idealised bcrypt digest: collision-free, never stores the raw value in
retrievable form.  `hashOf v` stands for the salted digest of `v`. -/
inductive HashedSecret (α : Type) : Type
  | hashOf (value : α) : HashedSecret α
deriving DecidableEq, Repr

/-- `passwordHash` (`bcrypt.hash`). -/
def passwordHash {α : Type} (value : α) : HashedSecret α :=
  .hashOf value

/-- `passwordVerify` (`bcrypt.verify`): true iff the digest is the digest of
the presented value. -/
def passwordVerify {α : Type} [DecidableEq α] (value : α) (hashed : HashedSecret α) : Bool :=
  hashed == .hashOf value

/-! ### Token Codec (`src/libs/jwt.ts`, oslo `createJWT` / `validateJWT`) -/

/-- Decoded JWT payload: `sub`, `iat`, optional `exp`. -/
structure Claims where
  sub : Option String
  iat : Nat
  exp : Option Nat
deriving DecidableEq, Repr

/-- A presented token on the wire: structural validity, which secret its
HMAC was computed with, and the carried claims. -/
structure Wire where
  wellFormed : Bool
  sigOf : String
  claims : Claims
deriving DecidableEq, Repr

/-- The three decode-time failures of oslo `validateJWT`, in check order:
parse, signature, expiry. -/
inductive DecodeError : Type
  | malformed
  | sigInvalid
  | expired
deriving DecidableEq, Repr

/-- oslo `validateJWT("HS256", secret, token)`: parse, verify HMAC, then
reject when `now ≥ exp` (`isWithinExpirationDate` is `now < exp`). -/
def validateJWT (secret : String) (token : Wire) (now : Nat) : Except DecodeError Claims :=
  if !token.wellFormed then .error .malformed
  else if token.sigOf ≠ secret then .error .sigInvalid
  else
    match token.claims.exp with
    | some e => if e ≤ now then .error .expired else .ok token.claims
    | none => .ok token.claims

/-- `validateToken`'s single wrapper error: `new Error("Failed to validate
token.", { cause: error })` — one generic message, original kept as cause. -/
inductive TokenError : Type
  | validateFailed (cause : DecodeError)
deriving DecidableEq, Repr

/-- `validateToken` (`src/libs/jwt.ts`): delegates to `validateJWT` and
wraps any failure in the generic error, preserving the cause. -/
def validateToken (secret : String) (token : Wire) (now : Nat) : Except TokenError Claims :=
  match validateJWT secret token now with
  | .ok claims => .ok claims
  | .error cause => .error (.validateFailed cause)

/-- `createToken`: HS256 JWT with `subject`, `includeIssuedTimestamp`, and
`expiresIn` — deterministic in (secret, subject, mint time, TTL). -/
def createToken (secret userId : String) (now ttlSeconds : Nat) : Wire :=
  { wellFormed := true
    sigOf := secret
    claims := { sub := some userId, iat := now, exp := some (now + ttlSeconds) } }

/-- Default access-token TTL: 15 minutes. -/
def accessTokenTtl : Nat := 15 * 60

/-- Default refresh-token TTL: 30 days. -/
def refreshTokenTtl : Nat := 30 * 24 * 60 * 60

/-- `createAccessToken` with the default 15-minute TTL. -/
def createAccessToken (secret userId : String) (now : Nat) : Wire :=
  createToken secret userId now accessTokenTtl

/-! ### Token Store (`user_tokens` table) -/

/-- A `userToken` row: the `token` column holds the bcrypt hash of the raw
refresh JWT, never the raw value (its type rules the raw string out). -/
structure UserToken where
  id : String
  userId : String
  token : HashedSecret Wire
  issuedAt : Nat
  expiresAt : Nat
  revoked : Bool
deriving DecidableEq, Repr

/-- The refresh-token store: the rows of `user_tokens`. -/
abbrev Store := List UserToken

/-- The store mutations the service issues. -/
inductive StoreOp : Type
  | insert (rec : UserToken)
  | revoke (id : String)
  | purgeStale (userId : String) (now : Nat)
deriving DecidableEq, Repr

/-- Effect of one mutation: `insert` is `userToken.create`; `revoke` is
`update({where: {id}, data: {revoked: true}})`; `purgeStale` is
`deleteMany({where: {userId, OR: [{expiresAt: {lt: now}}, {revoked: true}]}})`. -/
def applyOp (st : Store) : StoreOp → Store
  | .insert rec => st ++ [rec]
  | .revoke i => st.map (fun r => if r.id = i then { r with revoked := true } else r)
  | .purgeStale uid now =>
      st.filter (fun r => !(r.userId == uid && (decide (r.expiresAt < now) || r.revoked)))

/-- A mutation tagged with the connection it runs on: `inTransaction = true`
for the `prisma` client handed to the `$transaction` callback, `false` for
the module-level `db` client. -/
structure DbOp where
  op : StoreOp
  inTransaction : Bool
deriving DecidableEq, Repr

/-- Committed semantics: every operation applies (the transaction commits). -/
def runAll (st : Store) (ops : List DbOp) : Store :=
  ops.foldl (fun s o => applyOp s o.op) st

/-- Abort semantics: the surrounding transaction rolls back, so only the
operations issued on the global client persist. -/
def runRolledBack (st : Store) (ops : List DbOp) : Store :=
  (ops.filter (fun o => !o.inTransaction)).foldl (fun s o => applyOp s o.op) st

/-- `createRefreshToken` (`src/libs/jwt.ts`): mint the 30-day refresh JWT,
hash it, and build the row that `db.userToken.create` inserts (on the
global client; `newId` is the generated row id).  Returns the raw token —
the caller's single copy — and the inserted row. -/
def createRefreshToken (secret userId : String) (now : Nat) (newId : String) :
    Wire × UserToken :=
  let refreshToken := createToken secret userId now refreshTokenTtl
  (refreshToken,
   { id := newId
     userId := userId
     token := passwordHash refreshToken
     issuedAt := now
     expiresAt := now + refreshTokenTtl
     revoked := false })

/-! ### Token Lifecycle Manager (`src/services/authService.ts`) -/

/-- `processToken`'s action argument. -/
inductive TokenAction : Type
  | revoke
  | regenerate
deriving DecidableEq, Repr

/-- `processToken`'s failures: the wrapped decode error ("Failed to
validate token."), the falsy-subject guard ("Invalid or expired refresh
token"), and the no-matching-record case ("Refresh token is invalid or
already revoked!") — the reuse/unknown signal. -/
inductive ProcessError : Type
  | validateFailed (cause : DecodeError)
  | invalidOrExpired
  | tokenReuse
deriving DecidableEq, Repr

/-- `processToken` body, with the store mutations it issues kept abstract as
a tagged list: `findMany({userId, revoked: false, expiresAt: {gte: now}})`,
first record whose stored hash verifies the presented raw token, then
`update(revoked)` and `deleteMany` on the transaction client, and — for
`REGENERATE` — the replacement pair, whose row insert happens inside
`createRefreshToken` on the global client.  Returns the operation list and
the new pair, if any. -/
def processTokenOps (secret : String) (st : Store) (refreshToken : Wire) (now : Nat)
    (action : TokenAction) (newId : String) :
    Except ProcessError (List DbOp × Option (Wire × Wire)) :=
  match validateToken secret refreshToken now with
  | .error (.validateFailed cause) => .error (.validateFailed cause)
  | .ok decodedToken =>
    match decodedToken.sub with
    | none => .error .invalidOrExpired
    | some userId =>
      if userId = "" then .error .invalidOrExpired
      else
        match (st.filter (fun r =>
            r.userId == userId && !r.revoked && decide (now ≤ r.expiresAt))).find?
            (fun r => passwordVerify refreshToken r.token) with
        | none => .error .tokenReuse
        | some validTokenRecord =>
          match action with
          | .revoke =>
            .ok ([⟨.revoke validTokenRecord.id, true⟩, ⟨.purgeStale userId now, true⟩],
                 none)
          | .regenerate =>
            .ok ([⟨.revoke validTokenRecord.id, true⟩, ⟨.purgeStale userId now, true⟩,
                  ⟨.insert (createRefreshToken secret userId now newId).2, false⟩],
                 some (createAccessToken secret userId now,
                       (createRefreshToken secret userId now newId).1))

/-- `processToken` under committed-transaction semantics: the resulting
store and the returned pair. -/
def processToken (secret : String) (st : Store) (refreshToken : Wire) (now : Nat)
    (action : TokenAction) (newId : String) :
    Except ProcessError (Store × Option (Wire × Wire)) :=
  match processTokenOps secret st refreshToken now action newId with
  | .error e => .error e
  | .ok (ops, res) => .ok (runAll st ops, res)

/-- `regenToken`: `processToken(refreshToken, "REGENERATE")`. -/
def regenToken (secret : String) (st : Store) (refreshToken : Wire) (now : Nat)
    (newId : String) : Except ProcessError (Store × Option (Wire × Wire)) :=
  processToken secret st refreshToken now .regenerate newId

/-- `logout`: `processToken(refreshToken, "REVOKE")`. -/
def logout (secret : String) (st : Store) (refreshToken : Wire) (now : Nat) :
    Except ProcessError (Store × Option (Wire × Wire)) :=
  processToken secret st refreshToken now .revoke ""

/-! ### User directory (`users` / `roles` tables) -/

/-- A `users` row (fields the service reads). -/
structure User where
  id : String
  name : String
  username : String
  email : String
  password : HashedSecret String
  roleId : String
deriving DecidableEq, Repr

/-- A `roles` row: `parentId` references another role's `id`. -/
structure Role where
  id : String
  name : String
  parentId : Option String
deriving DecidableEq, Repr

/-- The relational state `register` reads and writes. -/
structure Db where
  users : List User
  roles : List Role
deriving DecidableEq, Repr

/-! ### `register` / `login` (`src/services/authService.ts`) -/

/-- `register`'s input after schema validation. -/
structure RegisterData where
  name : String
  username : String
  email : String
  password : String
deriving DecidableEq, Repr

/-- "Email or Username already registered!". -/
inductive RegisterError : Type
  | handleAlreadyRegistered
deriving DecidableEq, Repr

/-- `register`: inside one transaction, reject when a user already holds the
email or username, look up the role named `"USER"` (creating it when
missing, with generated id `newRoleId`), hash the password, and create the
user (generated id `newUserId`) linked to that role.  Returns the updated
state and the `{name, email}` result. -/
def register (db : Db) (data : RegisterData) (newRoleId newUserId : String) :
    Except RegisterError (Db × String × String) :=
  match db.users.find? (fun u => u.email == data.email || u.username == data.username) with
  | some _ => .error .handleAlreadyRegistered
  | none =>
    match db.roles.find? (fun r => r.name == "USER") with
    | some role =>
      .ok ({ users := db.users ++
               [{ id := newUserId, name := data.name, username := data.username,
                  email := data.email, password := passwordHash data.password,
                  roleId := role.id }],
             roles := db.roles },
           data.name, data.email)
    | none =>
      .ok ({ users := db.users ++
               [{ id := newUserId, name := data.name, username := data.username,
                  email := data.email, password := passwordHash data.password,
                  roleId := newRoleId }],
             roles := db.roles ++ [{ id := newRoleId, name := "USER", parentId := none }] },
           data.name, data.email)

/-- The email test `/^[^\s@]+@[^\s@]+\.[^\s@]+$/`: exactly one `@` (both
character classes exclude it), no whitespace, a nonempty local part, and a
domain containing a `.` that is neither its first nor its last character. -/
def isAllowedEmailChar (c : Char) : Bool :=
  !(c.isWhitespace || c == '@')

/-- Whether the login handle matches the email regex (decides which column
`login` queries). -/
def isEmailFormat (s : String) : Bool :=
  match s.toList.splitOn '@' with
  | [localPart, domainPart] =>
      !localPart.isEmpty && localPart.all isAllowedEmailChar &&
      domainPart.all isAllowedEmailChar &&
      ((domainPart.drop 1).dropLast.contains '.')
  | _ => false

/-- `login`'s user lookup: by `email` when the handle looks like an email,
otherwise by `username`. -/
def loginLookup (users : List User) (username : String) : Option User :=
  if isEmailFormat username then users.find? (fun u => u.email == username)
  else users.find? (fun u => u.username == username)

/-- The single "Invalid login credentials" failure. -/
inductive LoginError : Type
  | invalidCredentials
deriving DecidableEq, Repr

/-- `login`: look the user up by handle; when the user is missing **or** the
password fails verification, throw the one generic error; otherwise mint
the access token and the refresh token (which inserts its hashed row,
generated id `newId`). -/
def login (secret : String) (users : List User) (st : Store)
    (username password : String) (now : Nat) (newId : String) :
    Except LoginError (Wire × Wire × Store) :=
  match loginLookup users username with
  | none => .error .invalidCredentials
  | some user =>
    if !passwordVerify password user.password then .error .invalidCredentials
    else
      let accessToken := createAccessToken secret user.id now
      let minted := createRefreshToken secret user.id now newId
      .ok (accessToken, minted.1, st ++ [minted.2])

/-! ### Role Hierarchy Resolver (role middleware) -/

/-- `getRoleHierarchy`, fuel-indexed because the source recursion carries no
cycle guard: `find` the role by name, include its parent row, and prepend
the role's name to the parent's hierarchy; a missing role yields `[]`.
`none` means the recursion depth exceeds the given fuel — since the source
has no bound at all, `(∀ fuel, … = none)` is divergence of the source. -/
def getRoleHierarchy (roles : List Role) : Nat → String → Option (List String)
  | 0, _ => none
  | fuel + 1, roleName =>
    match roles.find? (fun r => r.name == roleName) with
    | none => some []
    | some row =>
      match row.parentId.bind (fun pid => roles.find? (fun r => r.id == pid)) with
      | none => some [row.name]
      | some parentRow =>
        (getRoleHierarchy roles fuel parentRow.name).map (fun rest => row.name :: rest)

/-- JavaScript `Array.prototype.indexOf`: first index, `-1` when absent. -/
def jsIndexOf (l : List String) (x : String) : Int :=
  match l.findIdx? (fun y => y == x) with
  | some i => (i : Int)
  | none => -1

/-- `getFilteredRoleHierarchy`: `hierarchy.slice(minRoleIndex >= 0 ?
minRoleIndex : 0)`. -/
def getFilteredRoleHierarchy (roles : List Role) (fuel : Nat)
    (roleName minRole : String) : Option (List String) :=
  (getRoleHierarchy roles fuel roleName).map (fun hierarchy =>
    let minRoleIndex := jsIndexOf hierarchy minRole
    hierarchy.drop (if 0 ≤ minRoleIndex then minRoleIndex.toNat else 0))

/-- The non-strict branch of `roleMiddleware`: recompute both indexes on the
filtered hierarchy and grant iff `userRoleIndex >= minRoleIndex`.  This is
the code's `isAtLeast(candidateRole, floorRole)`. -/
def isAtLeast (roles : List Role) (fuel : Nat) (userRole minRole : String) : Option Bool :=
  (getFilteredRoleHierarchy roles fuel userRole minRole).map (fun roleHierarchy =>
    decide (jsIndexOf roleHierarchy minRole ≤ jsIndexOf roleHierarchy userRole))

/-! ### Concrete instances used by the theorems -/

/-- The seeded hierarchy: USER→MODERATOR→ADMIN→SUPER_ADMIN (child's
`parentId` points at the next role up). -/
def chainRoles : List Role :=
  [{ id := "r1", name := "SUPER_ADMIN", parentId := none },
   { id := "r2", name := "ADMIN", parentId := some "r1" },
   { id := "r3", name := "MODERATOR", parentId := some "r2" },
   { id := "r4", name := "USER", parentId := some "r3" }]

/-- The chain plus an unrelated parentless role. -/
def guestRoles : List Role :=
  chainRoles ++ [{ id := "r5", name := "GUEST", parentId := none }]

/-- A corrupted hierarchy: role "A" is its own parent. -/
def cycleRoles : List Role :=
  [{ id := "r1", name := "A", parentId := some "r1" }]

/-- A refresh token as minted for user `"u"` at time 0 with secret `"s"`. -/
def tok0 : Wire := createToken "s" "u" 0 refreshTokenTtl

/-- The store right after that token was issued (row id `"t1"`). -/
def store0 : Store := [(createRefreshToken "s" "u" 0 "t1").2]

/-- The store after rotating `tok0` at time 0: the replacement row `"t2"`
hashes the *identical* reissued token. -/
def store1 : Store := [(createRefreshToken "s" "u" 0 "t2").2]

/-- The operation list a rotation of `tok0` at time 10 issues: revoke and
purge run on the transaction client, the replacement insert on the global
client. -/
def rotateOps10 : List DbOp :=
  [⟨.revoke "t1", true⟩, ⟨.purgeStale "u" 10, true⟩,
   ⟨.insert (createRefreshToken "s" "u" 10 "t2").2, false⟩]

/-- A structurally valid, correctly signed token whose `exp` (5) is past. -/
def expiredTok : Wire :=
  { wellFormed := true, sigOf := "s",
    claims := { sub := some "u", iat := 0, exp := some 5 } }

/-- A registered user: alice with password `"pw123"`. -/
def alice : User :=
  { id := "u1", name := "Alice", username := "alice", email := "alice@x.com",
    password := passwordHash "pw123", roleId := "r4" }

/-- A one-user directory. -/
def aliceUsers : List User := [alice]

/-! ### Helper lemmas -/

theorem jsIndexOf_ge_neg_one (l : List String) (x : String) : -1 ≤ jsIndexOf l x := by
  unfold jsIndexOf
  cases h : l.findIdx? (fun y => y == x) with
  | none => simp
  | some i =>
    simp only []
    omega

theorem jsIndexOf_eq_neg_one_of_not_mem (l : List String) (x : String) (h : x ∉ l) :
    jsIndexOf l x = -1 := by
  unfold jsIndexOf
  have hnone : l.findIdx? (fun y => y == x) = none := by
    rw [List.findIdx?_eq_none_iff]
    intro y hy
    simp only [beq_eq_false_iff_ne, ne_eq]
    intro hyx
    exact h (hyx ▸ hy)
  rw [hnone]

/-! ## Claims about the role hierarchy -/

/-- Claim C4 (counterexample): In a hierarchy containing the unrelated
parentless role GUEST, the floor role ADMIN does not occur in GUEST's
ancestry chain (which is just `["GUEST"]`), yet the hierarchical check
*grants* access: `isAtLeast "GUEST" "ADMIN" = some true`, refuting the
claim that it returns `false`. -/
theorem roleCheck_floor_absent_grants_counterexample :
    getRoleHierarchy guestRoles 10 "GUEST" = some ["GUEST"] ∧
    "ADMIN" ∉ ["GUEST"] ∧
    isAtLeast guestRoles 10 "GUEST" "ADMIN" = some true := by
  refine ⟨by decide, by decide, by decide⟩

/-- Extra recursion budget never changes a traversal that already returned. -/
theorem getRoleHierarchy_fuel_mono (roles : List Role) :
    ∀ fuel fuel' : Nat, fuel ≤ fuel' → ∀ (name : String) (l : List String),
      getRoleHierarchy roles fuel name = some l →
      getRoleHierarchy roles fuel' name = some l := by
  intro fuel
  induction fuel with
  | zero =>
    intro fuel' _ name l h
    exact absurd h (by simp [getRoleHierarchy])
  | succ n ih =>
    intro fuel' hle name l h
    obtain ⟨m, rfl⟩ : ∃ m, fuel' = m + 1 :=
      ⟨fuel' - 1, by omega⟩
    have hnm : n ≤ m := by omega
    rw [getRoleHierarchy] at h ⊢
    cases hfind : roles.find? (fun r => r.name == name) with
    | none =>
      rw [hfind] at h
      exact h
    | some row =>
      rw [hfind] at h
      have h' : (match row.parentId.bind (fun pid => roles.find? (fun r => r.id == pid)) with
          | none => some [row.name]
          | some parentRow =>
            Option.map (fun rest => row.name :: rest)
              (getRoleHierarchy roles n parentRow.name)) = some l := h
      show (match row.parentId.bind (fun pid => roles.find? (fun r => r.id == pid)) with
          | none => some [row.name]
          | some parentRow =>
            Option.map (fun rest => row.name :: rest)
              (getRoleHierarchy roles m parentRow.name)) = some l
      cases hpar : row.parentId.bind (fun pid => roles.find? (fun r => r.id == pid)) with
      | none =>
        rw [hpar] at h'
        exact h'
      | some parentRow =>
        rw [hpar] at h'
        have h'' : Option.map (fun rest => row.name :: rest)
            (getRoleHierarchy roles n parentRow.name) = some l := h'
        show Option.map (fun rest => row.name :: rest)
            (getRoleHierarchy roles m parentRow.name) = some l
        rw [Option.map_eq_some'] at h'' ⊢
        obtain ⟨rest, hrest, hl⟩ := h''
        exact ⟨rest, ih m hnm parentRow.name rest hrest, hl⟩

/-- Claim C4 (amended): Whenever the floor role is absent from the candidate's
resolved ancestry chain, the hierarchical check *grants* access (returns
`true`, not an error): the filtered hierarchy falls back to the whole
chain, the floor's JS index is `-1`, and every index is `≥ -1`. -/
theorem roleCheck_floor_absent_grants (roles : List Role) (fuel : Nat)
    (userRole minRole : String) (chain : List String)
    (h1 : getRoleHierarchy roles fuel userRole = some chain)
    (h2 : minRole ∉ chain) :
    isAtLeast roles fuel userRole minRole = some true := by
  have hmin : jsIndexOf chain minRole = -1 := jsIndexOf_eq_neg_one_of_not_mem chain minRole h2
  have hfil : getFilteredRoleHierarchy roles fuel userRole minRole = some chain := by
    unfold getFilteredRoleHierarchy
    rw [h1]
    simp only [Option.map_some']
    rw [hmin]
    norm_num
  unfold isAtLeast
  rw [hfil]
  simp only [Option.map_some']
  rw [hmin]
  rw [decide_eq_true (jsIndexOf_ge_neg_one chain userRole)]

/-- Witness for the amended C4 at the concrete GUEST/ADMIN instance. -/
theorem roleCheck_floor_absent_grants_witness :
    isAtLeast guestRoles 10 "GUEST" "ADMIN" = some true :=
  roleCheck_floor_absent_grants guestRoles 10 "GUEST" "ADMIN" ["GUEST"]
    (by decide) (by decide)

/-- Claim C5: In the USER→MODERATOR→ADMIN→SUPER_ADMIN hierarchy, for any
recursion budget covering the chain, the check grants ADMIN against floor
USER and denies USER against floor ADMIN. -/
theorem isAtLeast_admin_user_chain (fuel : Nat) (h : 4 ≤ fuel) :
    isAtLeast chainRoles fuel "ADMIN" "USER" = some true ∧
    isAtLeast chainRoles fuel "USER" "ADMIN" = some false := by
  have hA : getRoleHierarchy chainRoles fuel "ADMIN" = some ["ADMIN", "SUPER_ADMIN"] :=
    getRoleHierarchy_fuel_mono chainRoles 4 fuel h "ADMIN" _ (by decide)
  have hU : getRoleHierarchy chainRoles fuel "USER" =
      some ["USER", "MODERATOR", "ADMIN", "SUPER_ADMIN"] :=
    getRoleHierarchy_fuel_mono chainRoles 4 fuel h "USER" _ (by decide)
  constructor
  · unfold isAtLeast getFilteredRoleHierarchy
    rw [hA]
    decide
  · unfold isAtLeast getFilteredRoleHierarchy
    rw [hU]
    decide

/-- Witness for C5 at fuel 10. -/
theorem isAtLeast_admin_user_chain_witness :
    isAtLeast chainRoles 10 "ADMIN" "USER" = some true ∧
    isAtLeast chainRoles 10 "USER" "ADMIN" = some false :=
  isAtLeast_admin_user_chain 10 (by decide)

/-- Claim C6: The resolver's recursive parent walk carries no visited set: on
the corrupted self-referencing hierarchy, no recursion budget whatsoever
makes the traversal of "A" return — the source recursion diverges instead
of failing with a `RoleCycleDetected` error (no such error exists in the
code). -/
theorem getRoleHierarchy_cycle_diverges :
    ∀ fuel : Nat, getRoleHierarchy cycleRoles fuel "A" = none := by
  intro fuel
  induction fuel with
  | zero => rfl
  | succ n ih =>
    rw [getRoleHierarchy]
    rw [show cycleRoles.find? (fun r => r.name == "A") =
        some { id := "r1", name := "A", parentId := some "r1" } from rfl]
    show Option.map (fun rest => "A" :: rest) (getRoleHierarchy cycleRoles n "A") = none
    rw [ih]
    rfl

/-! ## Claims about the token codec -/

/-- Exhaustive characterisation of `validateJWT`'s failures: exactly one of
the three error kinds, each under mutually exclusive conditions, in the
source's check order (structure, then signature, then expiry). -/
theorem validateJWT_error_iff (secret : String) (token : Wire) (now : Nat)
    (cause : DecodeError) :
    validateJWT secret token now = .error cause ↔
      ((cause = .malformed ∧ token.wellFormed = false) ∨
       (cause = .sigInvalid ∧ token.wellFormed = true ∧ token.sigOf ≠ secret) ∨
       (cause = .expired ∧ token.wellFormed = true ∧ token.sigOf = secret ∧
         ∃ e, token.claims.exp = some e ∧ e ≤ now)) := by
  unfold validateJWT
  obtain ⟨wf, sig, sub, iat, exp⟩ := token
  cases wf <;> by_cases hs : sig = secret <;> rcases exp with _ | e <;>
    split_ifs <;> cases cause <;> simp_all <;> (try (split <;> simp_all))

/-- Claim C3: Every failure of `validateToken` carries exactly one of the
three mutually distinguishable decode-error kinds as its cause —
`malformed` iff the token is structurally invalid, `sigInvalid` iff it is
well-formed but signed with a different secret, `expired` iff it is
well-formed, correctly signed, and `now ≥ exp` — and a structurally valid,
correctly signed token past its TTL fails with the `expired` kind and
never any other. -/
theorem validateToken_error_trichotomy (secret : String) (token : Wire) (now : Nat) :
    (∀ cause, validateToken secret token now = .error (.validateFailed cause) →
      ((cause = .malformed ↔ token.wellFormed = false) ∧
       (cause = .sigInvalid ↔ token.wellFormed = true ∧ token.sigOf ≠ secret) ∧
       (cause = .expired ↔ token.wellFormed = true ∧ token.sigOf = secret ∧
         ∃ e, token.claims.exp = some e ∧ e ≤ now))) ∧
    (token.wellFormed = true → token.sigOf = secret →
      ∀ e, token.claims.exp = some e → e ≤ now →
      validateToken secret token now = .error (.validateFailed .expired)) := by
  constructor
  · intro cause h
    have hjwt : validateJWT secret token now = .error cause := by
      unfold validateToken at h
      cases hv : validateJWT secret token now with
      | ok c => rw [hv] at h; exact absurd h (by simp)
      | error c =>
        rw [hv] at h
        injection h with h'
        injection h' with h''
        rw [h'']
    rw [validateJWT_error_iff] at hjwt
    rcases hjwt with ⟨rfl, hw⟩ | ⟨rfl, hw, hs⟩ | ⟨rfl, hw, hs, e, he, hle⟩
    · refine ⟨by simp [hw], ?_, ?_⟩ <;> constructor <;> intro hc <;> simp_all
    · refine ⟨?_, by simp [hw, hs], ?_⟩ <;> constructor <;> intro hc <;> simp_all
    · refine ⟨?_, ?_, by simp_all⟩ <;> constructor <;> intro hc <;> simp_all
  · intro hw hs e he hle
    unfold validateToken
    rw [show validateJWT secret token now = .error .expired by
      rw [validateJWT_error_iff]
      exact Or.inr (Or.inr ⟨rfl, hw, hs, e, he, hle⟩)]

/-- Witness for C3: the concrete expired token (exp = 5) presented at time
10 fails with cause `expired`. -/
theorem validateToken_error_trichotomy_witness :
    validateToken "s" expiredTok 10 = .error (.validateFailed .expired) :=
  (validateToken_error_trichotomy "s" expiredTok 10).2 rfl rfl 5 rfl (by decide)

/-! ## Claims about login -/

/-- Claim C7: Login failure is indistinguishable across causes: an attempt
with an unregistered handle and an attempt with a registered handle but a
wrong password both return the one generic `invalidCredentials` error, so
the caller-visible results are equal. -/
theorem login_failure_indistinguishable (secret : String) (users : List User) (st : Store)
    (handleA pwA handleB pwB : String) (now : Nat) (idA idB : String) (u : User)
    (h1 : loginLookup users handleA = none)
    (h2 : loginLookup users handleB = some u)
    (h3 : passwordVerify pwB u.password = false) :
    login secret users st handleA pwA now idA = .error .invalidCredentials ∧
    login secret users st handleB pwB now idB = .error .invalidCredentials ∧
    login secret users st handleA pwA now idA = login secret users st handleB pwB now idB := by
  refine ⟨?_, ?_, ?_⟩ <;> simp [login, h1, h2, h3]

/-- Witness for C7: unregistered handle "bob" vs alice with a wrong
password both yield the same generic error. -/
theorem login_failure_indistinguishable_witness :
    login "s" aliceUsers [] "bob" "x" 0 "t1" = .error .invalidCredentials ∧
    login "s" aliceUsers [] "alice" "wrong" 0 "t2" = .error .invalidCredentials ∧
    login "s" aliceUsers [] "bob" "x" 0 "t1" = login "s" aliceUsers [] "alice" "wrong" 0 "t2" :=
  login_failure_indistinguishable "s" aliceUsers [] "bob" "x" "alice" "wrong" 0 "t1" "t2"
    alice (by decide) (by decide) (by decide)

/-! ## Claims about the token lifecycle -/

theorem passwordVerify_passwordHash_iff {α : Type} [DecidableEq α] (v w : α) :
    passwordVerify v (passwordHash w) = true ↔ w = v := by
  simp [passwordVerify, passwordHash]

theorem validateJWT_ok_iff (secret : String) (token : Wire) (now : Nat) (c : Claims) :
    validateJWT secret token now = .ok c ↔
      c = token.claims ∧ token.wellFormed = true ∧ token.sigOf = secret ∧
      (∀ e, token.claims.exp = some e → now < e) := by
  unfold validateJWT
  obtain ⟨wf, sig, sub, iat, exp⟩ := token
  cases wf with
  | false => simp
  | true =>
    by_cases hs : sig = secret
    · subst hs
      rcases exp with _ | e
      · simp [eq_comm]
      · by_cases hle : e ≤ now
        · simp only [if_pos hle, Bool.not_true, if_false]
          constructor
          · intro hcontra
            exact absurd hcontra (by simp)
          · rintro ⟨_, _, _, h4⟩
            exact absurd (h4 e rfl) (by omega)
        · have hlt : now < e := by omega
          simp [hle, eq_comm, hlt]
    · simp [hs]

theorem validateToken_ok_of_validateJWT (secret : String) (token : Wire) (now : Nat)
    (c : Claims) (h : validateToken secret token now = .ok c) :
    validateJWT secret token now = .ok c := by
  unfold validateToken at h
  split at h
  next claims hj =>
    have hcc : claims = c := by injection h
    rw [← hcc]
    exact hj
  next cause hj => exact absurd h (by simp)

theorem filter_length_le_one_unique {α : Type} (p : α → Bool) :
    ∀ (l : List α) (a b : α), (l.filter p).length ≤ 1 → a ∈ l → b ∈ l →
      p a = true → p b = true → a = b := by
  intro l
  induction l with
  | nil =>
    intro a b _ ha
    exact absurd ha (List.not_mem_nil a)
  | cons x xs ih =>
    intro a b hlen ha hb hpa hpb
    rw [List.mem_cons] at ha hb
    by_cases hpx : p x = true
    · rw [List.filter_cons_of_pos hpx, List.length_cons] at hlen
      have hempty : xs.filter p = [] :=
        List.length_eq_zero.mp (by omega)
      have hnot : ∀ c, c ∈ xs → p c = true → False := by
        intro c hc hpc
        have hmem : c ∈ xs.filter p := List.mem_filter.mpr ⟨hc, hpc⟩
        rw [hempty] at hmem
        exact absurd hmem (List.not_mem_nil c)
      rcases ha with rfl | ha
      · rcases hb with rfl | hb
        · rfl
        · exact (hnot b hb hpb).elim
      · exact (hnot a ha hpa).elim
    · rw [List.filter_cons_of_neg (by simpa using hpx)] at hlen
      rcases ha with rfl | ha
      · exact absurd hpa hpx
      · rcases hb with rfl | hb
        · exact absurd hpb hpx
        · exact ih a b hlen ha hb hpa hpb

/-- Inversion of a successful `processTokenOps`: what must have held of the
presented token and the store, and the exact operation list issued. -/
theorem processTokenOps_ok_inv (secret : String) (st : Store) (tok : Wire) (now : Nat)
    (action : TokenAction) (newId : String) (ops : List DbOp) (res : Option (Wire × Wire))
    (h : processTokenOps secret st tok now action newId = .ok (ops, res)) :
    ∃ uid matched,
      tok.claims.sub = some uid ∧ ¬(uid = "") ∧
      tok.wellFormed = true ∧ tok.sigOf = secret ∧
      (∀ e, tok.claims.exp = some e → now < e) ∧
      matched ∈ st ∧ matched.userId = uid ∧ matched.revoked = false ∧
      now ≤ matched.expiresAt ∧ passwordVerify tok matched.token = true ∧
      ((action = .revoke ∧
         ops = [⟨.revoke matched.id, true⟩, ⟨.purgeStale uid now, true⟩] ∧ res = none) ∨
       (action = .regenerate ∧
         ops = [⟨.revoke matched.id, true⟩, ⟨.purgeStale uid now, true⟩,
                ⟨.insert (createRefreshToken secret uid now newId).2, false⟩] ∧
         res = some (createAccessToken secret uid now,
                     (createRefreshToken secret uid now newId).1))) := by
  unfold processTokenOps at h
  split at h
  next cause hv => exact absurd h (by simp)
  next decoded hv =>
    have hjwt := validateToken_ok_of_validateJWT secret tok now decoded hv
    rw [validateJWT_ok_iff] at hjwt
    obtain ⟨rfl, hw, hs, hexp⟩ := hjwt
    split at h
    next hsub => exact absurd h (by simp)
    next uid hsub =>
      split at h
      next huid => exact absurd h (by simp)
      next huid =>
        split at h
        next hfind => exact absurd h (by simp)
        next matched hfind =>
          have hver0 := List.find?_some hfind
          have hver : passwordVerify tok matched.token = true := hver0
          have hmemf := List.mem_of_find?_eq_some hfind
          rw [List.mem_filter] at hmemf
          obtain ⟨hmem, hcond⟩ := hmemf
          rw [Bool.and_eq_true, Bool.and_eq_true] at hcond
          obtain ⟨⟨huser, hrev⟩, hexpAt⟩ := hcond
          rw [beq_iff_eq] at huser
          rw [Bool.not_eq_true'] at hrev
          rw [decide_eq_true_eq] at hexpAt
          refine ⟨uid, matched, hsub, huid, hw, hs, hexp, hmem, huser, hrev, hexpAt, hver, ?_⟩
          cases action with
          | revoke =>
            refine Or.inl ⟨rfl, ?_, ?_⟩ <;> injection h with h1 <;> injection h1 with h2 h3
            · exact h2.symm
            · exact h3.symm
          | regenerate =>
            refine Or.inr ⟨rfl, ?_, ?_⟩ <;> injection h with h1 <;> injection h1 with h2 h3
            · exact h2.symm
            · exact h3.symm

/-- Committed effect of the revoke-then-purge prefix. -/
theorem runAll_revoke_purge (st : Store) (i uid : String) (now : Nat) (b1 b2 : Bool) :
    runAll st [⟨.revoke i, b1⟩, ⟨.purgeStale uid now, b2⟩] =
      (st.map (fun r => if r.id = i then { r with revoked := true } else r)).filter
        (fun r => !(r.userId == uid && (decide (r.expiresAt < now) || r.revoked))) := rfl

/-- Committed effect of revoke, purge, then the replacement insert. -/
theorem runAll_revoke_purge_insert (st : Store) (i uid : String) (now : Nat)
    (rec : UserToken) (b1 b2 b3 : Bool) :
    runAll st [⟨.revoke i, b1⟩, ⟨.purgeStale uid now, b2⟩, ⟨.insert rec, b3⟩] =
      ((st.map (fun r => if r.id = i then { r with revoked := true } else r)).filter
        (fun r => !(r.userId == uid && (decide (r.expiresAt < now) || r.revoked)))) ++ [rec] := rfl

/-- Inversion of a successful `processToken` (committed semantics). -/
theorem processToken_ok_inv (secret : String) (st : Store) (tok : Wire) (now : Nat)
    (action : TokenAction) (newId : String) (st1 : Store) (res : Option (Wire × Wire))
    (h : processToken secret st tok now action newId = .ok (st1, res)) :
    ∃ ops, processTokenOps secret st tok now action newId = .ok (ops, res) ∧
      st1 = runAll st ops := by
  unfold processToken at h
  split at h
  next e hops => exact absurd h (by simp)
  next ops1 res1 hops =>
    have h' : (Except.ok (runAll st ops1, res1) :
        Except ProcessError (Store × Option (Wire × Wire))) = .ok (st1, res) := h
    injection h' with h''
    injection h'' with h2 h3
    refine ⟨ops1, ?_, h2.symm⟩
    rw [← h3]
    exact hops

/-- Claim C2: At the concrete rotation of `tok0` at time 10: the operation
list marks the revoke and the purge as transactional but the replacement
insert as running on the global client (outside the transaction), and if
the transaction aborts after `createRefreshToken` ran, the persisted state
holds *both* the old record (revoke rolled back, still active) and the
replacement record — two active records for the principal, so the four
steps are not one all-or-nothing unit. -/
theorem rotate_insert_outside_transaction :
    processTokenOps "s" store0 tok0 10 .regenerate "t2" =
      .ok (rotateOps10,
           some (createAccessToken "s" "u" 10, createToken "s" "u" 10 refreshTokenTtl)) ∧
    (rotateOps10.filter (fun o => o.inTransaction)).length = 2 ∧
    rotateOps10.filter (fun o => !o.inTransaction) =
      [⟨.insert (createRefreshToken "s" "u" 10 "t2").2, false⟩] ∧
    runRolledBack store0 rotateOps10 =
      [(createRefreshToken "s" "u" 0 "t1").2, (createRefreshToken "s" "u" 10 "t2").2] ∧
    ((runRolledBack store0 rotateOps10).filter
        (fun r => r.userId == "u" && !r.revoked && decide (10 ≤ r.expiresAt))).length = 2 := by
  refine ⟨by decide, by decide, by decide, by decide, by decide⟩

/-- After the revoke-and-purge of a matched record, no surviving record's
stored hash verifies the consumed raw token, provided the store held at
most one record matching it. -/
theorem consumed_record_gone (st : Store) (tok : Wire) (t : Nat) (uid : String)
    (matched : UserToken)
    (hdup : (st.filter (fun r => passwordVerify tok r.token)).length ≤ 1)
    (hmem : matched ∈ st) (hver : passwordVerify tok matched.token = true)
    (huser : matched.userId = uid) :
    ∀ rec ∈ (st.map (fun r =>
        if r.id = matched.id then { r with revoked := true } else r)).filter
        (fun r => !(r.userId == uid && (decide (r.expiresAt < t) || r.revoked))),
      passwordVerify tok rec.token = false := by
  intro rec hrec
  rw [List.mem_filter] at hrec
  obtain ⟨hrecmap, hcond⟩ := hrec
  rw [List.mem_map] at hrecmap
  obtain ⟨orig, horig, hrecdef⟩ := hrecmap
  subst hrecdef
  by_contra hcontra
  rw [Bool.not_eq_false] at hcontra
  have htok : (if orig.id = matched.id then
      { orig with revoked := true } else orig).token = orig.token := by
    by_cases hid : orig.id = matched.id
    · rw [if_pos hid]
    · rw [if_neg hid]
  rw [htok] at hcontra
  have horigeq : orig = matched :=
    filter_length_le_one_unique _ st orig matched hdup horig hmem hcontra hver
  subst horigeq
  rw [if_pos rfl] at hcond
  simp [huser] at hcond

/-- When the presented token decodes, carries a nonempty subject, and no
stored record's hash verifies it, `processToken` fails with the
reuse-or-unknown error. -/
theorem processToken_tokenReuse_of_no_match (secret : String) (st : Store) (tok : Wire)
    (now : Nat) (action : TokenAction) (newId : String) (uid : String)
    (hw : tok.wellFormed = true) (hs : tok.sigOf = secret)
    (hexp : ∀ e, tok.claims.exp = some e → now < e)
    (hsub : tok.claims.sub = some uid) (huid : ¬(uid = ""))
    (hnone : ∀ rec ∈ st, passwordVerify tok rec.token = false) :
    processToken secret st tok now action newId = .error .tokenReuse := by
  have hval : validateToken secret tok now = .ok tok.claims := by
    unfold validateToken
    rw [(validateJWT_ok_iff secret tok now tok.claims).mpr ⟨rfl, hw, hs, hexp⟩]
  have hfind : (st.filter (fun r =>
      r.userId == uid && !r.revoked && decide (now ≤ r.expiresAt))).find?
      (fun r => passwordVerify tok r.token) = none := by
    rw [List.find?_eq_none]
    intro r hr
    rw [hnone r (List.mem_filter.mp hr).1]
    simp
  have hops : processTokenOps secret st tok now action newId = .error .tokenReuse := by
    simp only [processTokenOps, hval, hsub, hfind]
    rw [if_neg huid]
  simp only [processToken, hops]

/-- Claim C1 (counterexample): The JWT mint is deterministic in (secret,
subject, second, TTL), so rotating `tok0` in the same second it was issued
(time 0) reissues the *identical* raw token: the replacement record hashes
`tok0` again, and a second Rotate presenting the consumed `tok0` does not
fail with `tokenReuse` — it succeeds again, refuting strict single-use. -/
theorem rotate_sameSecond_reuse_counterexample :
    regenToken "s" store0 tok0 0 "t2" =
      .ok (store1, some (createAccessToken "s" "u" 0, tok0)) ∧
    regenToken "s" store1 tok0 0 "t3" ≠ .error .tokenReuse ∧
    (regenToken "s" store1 tok0 0 "t3").isOk = true := by
  refine ⟨by decide, by decide, by decide⟩

/-- Claim C1 (amended): Single-use up to deterministic re-mint: (1) if a
Rotate or Revoke at time `t` succeeds consuming raw token `tok`, the store
held at most one record matching `tok`, the token a Rotate would re-mint
at `t` differs from `tok` (automatic whenever `t` is a later second than
`tok`'s mint), and the second presentation happens before `tok`'s expiry
claim, then a subsequent Rotate presenting `tok` against the resulting
store fails with the reuse-or-unknown error; (2) the first Rotate on a
freshly issued token succeeds (presented after issuance and before its
TTL elapses). -/
theorem refresh_rotation_single_use_amended :
    (∀ (secret : String) (st : Store) (tok : Wire) (t t2 : Nat) (action : TokenAction)
       (newId newId2 : String) (st1 : Store) (res : Option (Wire × Wire)),
       processToken secret st tok t action newId = .ok (st1, res) →
       (st.filter (fun r => passwordVerify tok r.token)).length ≤ 1 →
       (∀ uid, tok.claims.sub = some uid → createToken secret uid t refreshTokenTtl ≠ tok) →
       (∀ e, tok.claims.exp = some e → t2 < e) →
       processToken secret st1 tok t2 .regenerate newId2 = .error .tokenReuse) ∧
    (∀ (secret uid : String) (t now : Nat) (rid rid2 : String),
       ¬(uid = "") → t ≤ now → now < t + refreshTokenTtl →
       (regenToken secret [(createRefreshToken secret uid t rid).2]
         (createRefreshToken secret uid t rid).1 now rid2).isOk = true) := by
  constructor
  · intro secret st tok t t2 action newId newId2 st1 res hrun hdup hfresh hexp2
    obtain ⟨ops, hops, hst1⟩ := processToken_ok_inv secret st tok t action newId st1 res hrun
    obtain ⟨uid, matched, hsub, huid, hw, hs, _hexp1, hmem, huser, _hrev, _hexpAt, hver, hcase⟩ :=
      processTokenOps_ok_inv secret st tok t action newId ops res hops
    have hnomatch : ∀ rec ∈ st1, passwordVerify tok rec.token = false := by
      rcases hcase with ⟨_, hopseq, _⟩ | ⟨_, hopseq, _⟩
      · rw [hopseq] at hst1
        rw [runAll_revoke_purge] at hst1
        rw [hst1]
        exact consumed_record_gone st tok t uid matched hdup hmem hver huser
      · rw [hopseq] at hst1
        rw [runAll_revoke_purge_insert] at hst1
        rw [hst1]
        intro rec hrec
        rw [List.mem_append] at hrec
        rcases hrec with hrec | hrec
        · exact consumed_record_gone st tok t uid matched hdup hmem hver huser rec hrec
        · rw [List.mem_singleton] at hrec
          subst hrec
          rw [show (createRefreshToken secret uid t newId).2.token =
              passwordHash (createToken secret uid t refreshTokenTtl) from rfl]
          rw [Bool.eq_false_iff]
          intro hcontra
          exact hfresh uid hsub ((passwordVerify_passwordHash_iff
            tok (createToken secret uid t refreshTokenTtl)).mp hcontra)
    exact processToken_tokenReuse_of_no_match secret st1 tok t2 .regenerate newId2 uid
      hw hs hexp2 hsub huid hnomatch
  · intro secret uid t now rid rid2 huid ht hlt
    have hval : validateToken secret (createToken secret uid t refreshTokenTtl) now =
        .ok (createToken secret uid t refreshTokenTtl).claims := by
      unfold validateToken
      rw [(validateJWT_ok_iff secret (createToken secret uid t refreshTokenTtl) now
        (createToken secret uid t refreshTokenTtl).claims).mpr ⟨rfl, rfl, rfl, ?_⟩]
      intro e he
      have he' : t + refreshTokenTtl = e := by injection he
      rw [← he']
      exact hlt
    have hsub : (createToken secret uid t refreshTokenTtl).claims.sub = some uid := rfl
    have hle2 : now ≤ t + refreshTokenTtl := by omega
    have hfind : ([(createRefreshToken secret uid t rid).2].filter (fun r =>
        r.userId == uid && !r.revoked && decide (now ≤ r.expiresAt))).find?
        (fun r => passwordVerify (createToken secret uid t refreshTokenTtl) r.token) =
        some (createRefreshToken secret uid t rid).2 := by
      simp [List.filter, List.find?, createRefreshToken, passwordVerify, passwordHash, hle2]
    have hops : processTokenOps secret [(createRefreshToken secret uid t rid).2]
        (createToken secret uid t refreshTokenTtl) now .regenerate rid2 =
        .ok ([⟨.revoke (createRefreshToken secret uid t rid).2.id, true⟩,
              ⟨.purgeStale uid now, true⟩,
              ⟨.insert (createRefreshToken secret uid now rid2).2, false⟩],
             some (createAccessToken secret uid now,
                   (createRefreshToken secret uid now rid2).1)) := by
      simp only [processTokenOps, hval, hsub, hfind]
      rw [if_neg huid]
    rw [show (createRefreshToken secret uid t rid).1 =
        createToken secret uid t refreshTokenTtl from rfl]
    simp only [regenToken, processToken, hops]
    rfl

/-- Witness for the amended C1: a rotation at time 10 of the token issued
at time 0 succeeds, and re-presenting the consumed token at time 20 fails
with the reuse error; a fresh token issued at time 5 rotates successfully
at time 7. -/
theorem refresh_rotation_single_use_amended_witness :
    processToken "s" [(createRefreshToken "s" "u" 10 "t2").2] tok0 20 .regenerate "t3" =
      .error .tokenReuse ∧
    (regenToken "s" [(createRefreshToken "s" "u" 5 "tA").2]
      (createRefreshToken "s" "u" 5 "tA").1 7 "tB").isOk = true := by
  constructor
  · exact refresh_rotation_single_use_amended.1 "s" store0 tok0 10 20 .regenerate "t2" "t3"
      [(createRefreshToken "s" "u" 10 "t2").2]
      (some (createAccessToken "s" "u" 10, createToken "s" "u" 10 refreshTokenTtl))
      (by decide) (by decide)
      (by intro uid h; injection h with h'; subst h'; decide)
      (by intro e h; injection h with h'; subst h'; decide)
  · exact refresh_rotation_single_use_amended.2 "s" "u" 5 7 "tA" "tB"
      (by decide) (by decide) (by decide)

/-- Claim C8: The store never holds a raw refresh token: (1) the record built
by `createRefreshToken` (Issue path) stores exactly the Credential
Verifier's hash of the raw token handed back to the caller, and starts
unrevoked; (2) every record inserted by a successful Rotate stores the
hash of the raw refresh token returned by that call; (3) `revoked` is
monotone — given unique record ids, no operation turns a revoked record's
flag back to false. -/
theorem store_never_holds_raw :
    (∀ (secret uid : String) (now : Nat) (newId : String),
       (createRefreshToken secret uid now newId).2.token =
         passwordHash (createRefreshToken secret uid now newId).1 ∧
       (createRefreshToken secret uid now newId).2.revoked = false) ∧
    (∀ (secret : String) (st : Store) (tok : Wire) (now : Nat) (newId : String)
       (ops : List DbOp) (access refresh : Wire),
       processTokenOps secret st tok now .regenerate newId = .ok (ops, some (access, refresh)) →
       ∀ rec b, (⟨.insert rec, b⟩ : DbOp) ∈ ops → rec.token = passwordHash refresh) ∧
    (∀ (secret : String) (st : Store) (tok : Wire) (now : Nat) (action : TokenAction)
       (newId : String) (st1 : Store) (res : Option (Wire × Wire)),
       processToken secret st tok now action newId = .ok (st1, res) →
       (∀ rec ∈ st, ¬(rec.id = newId)) →
       (∀ a ∈ st, ∀ b ∈ st, a.id = b.id → a = b) →
       ∀ recOld ∈ st, recOld.revoked = true →
       ∀ rec1 ∈ st1, rec1.id = recOld.id → rec1.revoked = true) := by
  refine ⟨fun secret uid now newId => ⟨rfl, rfl⟩, ?_, ?_⟩
  · intro secret st tok now newId ops access refresh hops rec b hmem
    obtain ⟨uid, matched, _, _, _, _, _, _, _, _, _, _, hcase⟩ :=
      processTokenOps_ok_inv secret st tok now .regenerate newId ops (some (access, refresh)) hops
    rcases hcase with ⟨hact, _, _⟩ | ⟨_, hopseq, hres⟩
    · exact absurd hact (by simp)
    · rw [hopseq] at hmem
      have hrefresh : refresh = (createRefreshToken secret uid now newId).1 := by
        injection hres with h1
        injection h1
      simp only [List.mem_cons, List.not_mem_nil, or_false] at hmem
      rcases hmem with h | h | h
      · exact absurd h (by intro hc; injection hc with hc1 hc2; exact StoreOp.noConfusion hc1)
      · exact absurd h (by intro hc; injection hc with hc1 hc2; exact StoreOp.noConfusion hc1)
      · have hrec : rec = (createRefreshToken secret uid now newId).2 := by
          injection h with h1 h2
          injection h1
        rw [hrec, hrefresh]
        rfl
  · intro secret st tok now action newId st1 res hrun hids huniq recOld hold hrevoked rec1 hrec1 hid
    obtain ⟨ops, hops, hst1⟩ := processToken_ok_inv secret st tok now action newId st1 res hrun
    obtain ⟨uid, matched, _, _, _, _, _, _, _, _, _, _, hcase⟩ :=
      processTokenOps_ok_inv secret st tok now action newId ops res hops
    have hmain : ∀ rec ∈ (st.map (fun r =>
        if r.id = matched.id then { r with revoked := true } else r)).filter
        (fun r => !(r.userId == uid && (decide (r.expiresAt < now) || r.revoked))),
        rec.id = recOld.id → rec.revoked = true := by
      intro rec hrec hrecid
      rw [List.mem_filter] at hrec
      obtain ⟨hrecmap, _⟩ := hrec
      rw [List.mem_map] at hrecmap
      obtain ⟨orig, horig, hrecdef⟩ := hrecmap
      by_cases hidm : orig.id = matched.id
      · rw [if_pos hidm] at hrecdef
        rw [← hrecdef]
      · rw [if_neg hidm] at hrecdef
        subst hrecdef
        have : orig = recOld := huniq orig horig recOld hold hrecid
        rw [this]
        exact hrevoked
    rcases hcase with ⟨_, hopseq, _⟩ | ⟨_, hopseq, _⟩
    · rw [hopseq, runAll_revoke_purge] at hst1
      rw [hst1] at hrec1
      exact hmain rec1 hrec1 hid
    · rw [hopseq, runAll_revoke_purge_insert] at hst1
      rw [hst1] at hrec1
      rw [List.mem_append] at hrec1
      rcases hrec1 with hrec1 | hrec1
      · exact hmain rec1 hrec1 hid
      · rw [List.mem_singleton] at hrec1
        subst hrec1
        have hnew : (createRefreshToken secret uid now newId).2.id = newId := rfl
        rw [hnew] at hid
        exact absurd hid.symm (hids recOld hold)

/-- Witness for C8: the three conjuncts at concrete inputs — the issued
record hashes the returned raw token; the rotation at time 10 inserts the
hash of the returned replacement; after that rotation, the (vacuous)
monotonicity conclusion holds of the resulting store. -/
theorem store_never_holds_raw_witness :
    ((createRefreshToken "s" "u" 0 "t1").2.token =
      passwordHash (createRefreshToken "s" "u" 0 "t1").1 ∧
     (createRefreshToken "s" "u" 0 "t1").2.revoked = false) ∧
    (∀ rec b, (⟨.insert rec, b⟩ : DbOp) ∈ rotateOps10 →
      rec.token = passwordHash (createToken "s" "u" 10 refreshTokenTtl)) ∧
    (∀ recOld ∈ store0, recOld.revoked = true →
      ∀ rec1 ∈ [(createRefreshToken "s" "u" 10 "t2").2], rec1.id = recOld.id →
      rec1.revoked = true) := by
  refine ⟨store_never_holds_raw.1 "s" "u" 0 "t1", ?_, ?_⟩
  · exact store_never_holds_raw.2.1 "s" store0 tok0 10 "t2" rotateOps10
      (createAccessToken "s" "u" 10) (createToken "s" "u" 10 refreshTokenTtl) (by decide)
  · exact store_never_holds_raw.2.2 "s" store0 tok0 10 .regenerate "t2"
      [(createRefreshToken "s" "u" 10 "t2").2]
      (some (createAccessToken "s" "u" 10, createToken "s" "u" 10 refreshTokenTtl))
      (by decide) (by decide) (by decide)

/-- Claim C9: After every successful Rotate or Revoke, no revoked record and
no expired record remains stored for the token's principal: survivors of
the purge are unrevoked with `expiresAt` not in the past, and the
replacement record (when minted) starts unrevoked with a future expiry. -/
theorem rotate_leaves_no_stale_records (secret : String) (st : Store) (tok : Wire)
    (now : Nat) (action : TokenAction) (newId : String) (st1 : Store)
    (res : Option (Wire × Wire)) (uid : String)
    (hrun : processToken secret st tok now action newId = .ok (st1, res))
    (hsub : tok.claims.sub = some uid) :
    ∀ rec ∈ st1, rec.userId = uid → rec.revoked = false ∧ now ≤ rec.expiresAt := by
  obtain ⟨ops, hops, hst1⟩ := processToken_ok_inv secret st tok now action newId st1 res hrun
  obtain ⟨uid', matched, hsub', _, _, _, _, _, _, _, _, _, hcase⟩ :=
    processTokenOps_ok_inv secret st tok now action newId ops res hops
  have huu : uid' = uid := by
    rw [hsub'] at hsub
    injection hsub
  subst huu
  have hsurv : ∀ rec ∈ (st.map (fun r =>
      if r.id = matched.id then { r with revoked := true } else r)).filter
      (fun r => !(r.userId == uid' && (decide (r.expiresAt < now) || r.revoked))),
      rec.userId = uid' → rec.revoked = false ∧ now ≤ rec.expiresAt := by
    intro rec hrec hrecuid
    rw [List.mem_filter] at hrec
    obtain ⟨_, hcond⟩ := hrec
    rw [Bool.not_eq_true'] at hcond
    rw [hrecuid] at hcond
    simp only [beq_self_eq_true, Bool.true_and, Bool.or_eq_false_iff,
      decide_eq_false_iff_not, Nat.not_lt] at hcond
    exact ⟨hcond.2, hcond.1⟩
  rcases hcase with ⟨_, hopseq, _⟩ | ⟨_, hopseq, _⟩
  · rw [hopseq, runAll_revoke_purge] at hst1
    rw [hst1]
    exact hsurv
  · rw [hopseq, runAll_revoke_purge_insert] at hst1
    rw [hst1]
    intro rec hrec hrecuid
    rw [List.mem_append] at hrec
    rcases hrec with hrec | hrec
    · exact hsurv rec hrec hrecuid
    · rw [List.mem_singleton] at hrec
      subst hrec
      refine ⟨rfl, ?_⟩
      show now ≤ now + refreshTokenTtl
      omega

/-- Witness for C9 at the concrete rotation of `tok0` at time 10: the
replacement record — the only record left for `"u"` — is unrevoked and
unexpired. -/
theorem rotate_leaves_no_stale_records_witness :
    (createRefreshToken "s" "u" 10 "t2").2.revoked = false ∧
    10 ≤ (createRefreshToken "s" "u" 10 "t2").2.expiresAt :=
  rotate_leaves_no_stale_records "s" store0 tok0 10 .regenerate "t2"
    [(createRefreshToken "s" "u" 10 "t2").2]
    (some (createAccessToken "s" "u" 10, createToken "s" "u" 10 refreshTokenTtl))
    "u" (by decide) (by decide)
    (createRefreshToken "s" "u" 10 "t2").2 (by simp) rfl

/-! ## Claims about registration -/

/-- Claim C10: Every principal created through `register` is assigned the
role named "USER": the new user list is the old one plus one user, that
user's `roleId` is the id of a role named "USER" present afterwards; when
the role already existed it is reused and the role table is unchanged,
otherwise exactly the new "USER" role is created. -/
theorem register_assigns_user_role (db : Db) (data : RegisterData)
    (newRoleId newUserId : String) (db' : Db) (rn re : String)
    (hrun : register db data newRoleId newUserId = .ok (db', rn, re)) :
    ∃ user role,
      db'.users = db.users ++ [user] ∧
      role ∈ db'.roles ∧ role.name = "USER" ∧ user.roleId = role.id ∧
      (∀ r, db.roles.find? (fun x => x.name == "USER") = some r →
        role = r ∧ db'.roles = db.roles) ∧
      (db.roles.find? (fun x => x.name == "USER") = none →
        role = { id := newRoleId, name := "USER", parentId := none } ∧
        db'.roles = db.roles ++ [role]) := by
  unfold register at hrun
  split at hrun
  next hfound => exact absurd hrun (by simp)
  next hfound =>
    split at hrun
    next role hrole =>
      injection hrun with h1
      injection h1 with h2 h3
      injection h3 with h4 h5
      refine ⟨{ id := newUserId, name := data.name, username := data.username,
                email := data.email, password := passwordHash data.password,
                roleId := role.id }, role, ?_, ?_, ?_, rfl, ?_, ?_⟩
      · rw [← h2]
      · rw [← h2]
        exact List.mem_of_find?_eq_some hrole
      · have := List.find?_some hrole
        have hname : (role.name == "USER") = true := this
        rw [beq_iff_eq] at hname
        exact hname
      · intro r hr
        rw [hrole] at hr
        have : role = r := by injection hr
        exact ⟨this, by rw [← h2]⟩
      · intro hnone
        rw [hrole] at hnone
        exact absurd hnone (by simp)
    next hrole =>
      injection hrun with h1
      injection h1 with h2 h3
      injection h3 with h4 h5
      refine ⟨{ id := newUserId, name := data.name, username := data.username,
                email := data.email, password := passwordHash data.password,
                roleId := newRoleId },
              { id := newRoleId, name := "USER", parentId := none },
              ?_, ?_, rfl, rfl, ?_, ?_⟩
      · rw [← h2]
      · rw [← h2]
        simp
      · intro r hr
        rw [hrole] at hr
        exact absurd hr (by simp)
      · intro _
        exact ⟨rfl, by rw [← h2]⟩

/-- Witness for C10: registering alice against an empty database creates
the "USER" role and links the new principal to it. -/
theorem register_assigns_user_role_witness :
    ∃ user role,
      (Db.mk [{ id := "u9", name := "Alice", username := "alice", email := "alice@x.com",
                password := passwordHash "pw123", roleId := "r9" }]
             [{ id := "r9", name := "USER", parentId := none }]).users =
        (Db.mk [] []).users ++ [user] ∧
      role ∈ (Db.mk [{ id := "u9", name := "Alice", username := "alice", email := "alice@x.com",
                       password := passwordHash "pw123", roleId := "r9" }]
                    [{ id := "r9", name := "USER", parentId := none }]).roles ∧
      role.name = "USER" ∧ user.roleId = role.id ∧
      (∀ r, (Db.mk [] []).roles.find? (fun x => x.name == "USER") = some r →
        role = r ∧ (Db.mk [{ id := "u9", name := "Alice", username := "alice",
                             email := "alice@x.com", password := passwordHash "pw123",
                             roleId := "r9" }]
                          [{ id := "r9", name := "USER", parentId := none }]).roles =
          (Db.mk [] []).roles) ∧
      ((Db.mk [] []).roles.find? (fun x => x.name == "USER") = none →
        role = { id := "r9", name := "USER", parentId := none } ∧
        (Db.mk [{ id := "u9", name := "Alice", username := "alice", email := "alice@x.com",
                  password := passwordHash "pw123", roleId := "r9" }]
               [{ id := "r9", name := "USER", parentId := none }]).roles =
          (Db.mk [] []).roles ++ [role]) :=
  register_assigns_user_role (Db.mk [] [])
    { name := "Alice", username := "alice", email := "alice@x.com", password := "pw123" }
    "r9" "u9"
    (Db.mk [{ id := "u9", name := "Alice", username := "alice", email := "alice@x.com",
              password := passwordHash "pw123", roleId := "r9" }]
           [{ id := "r9", name := "USER", parentId := none }])
    "Alice" "alice@x.com" (by decide)

end HonoAuth
